import Mathlib

/-!
Verification of the geometric-placement helper layer of the 6-axis-robot
CAD macro scripts (src/useful_functions.py and the per-part recipe
scripts) against its natural-language specification.

The scripts drive the FreeCAD scripting API.  We shallowly embed:

* FreeCAD rotations as 3x3 real matrices.  FreeCAD constructs a rotation
  from three floats as yaw-pitch-roll Euler angles in degrees (yaw about
  Z, pitch about Y, roll about X, composed as Rz * Ry * Rx), and
  from an axis and an angle in degrees; `Rotation.multiply(other)`
  is the matrix product `self * other`, and `Rotation.multVec` is the
  matrix action on a column vector.
* Vectors as functions `Fin 3 → ℝ`.
* The document as the list of objects added to it so far; `addObject`
  appends and returns the index of the new object.
* Solids, where a claim needs their geometry, as point sets in ℝ³.
-/

namespace RobotCAD

/-- 3D vectors (FreeCAD `App.Vector`). -/
abbrev Vec3 := Fin 3 → ℝ

/-- Rotations, represented by their 3x3 matrix (FreeCAD `App.Rotation`). -/
abbrev Rot := Matrix (Fin 3) (Fin 3) ℝ

/-- Degrees to radians, as `math.radians` / FreeCAD internal conversion. -/
noncomputable def radians (d : ℝ) : ℝ := d * Real.pi / 180

/-- Rotation about the X axis by `d` degrees. -/
noncomputable def rotX (d : ℝ) : Rot :=
  ![![1, 0, 0],
    ![0, Real.cos (radians d), -Real.sin (radians d)],
    ![0, Real.sin (radians d), Real.cos (radians d)]]

/-- Rotation about the Y axis by `d` degrees. -/
noncomputable def rotY (d : ℝ) : Rot :=
  ![![Real.cos (radians d), 0, Real.sin (radians d)],
    ![0, 1, 0],
    ![-Real.sin (radians d), 0, Real.cos (radians d)]]

/-- Rotation about the Z axis by `d` degrees. -/
noncomputable def rotZ (d : ℝ) : Rot :=
  ![![Real.cos (radians d), -Real.sin (radians d), 0],
    ![Real.sin (radians d), Real.cos (radians d), 0],
    ![0, 0, 1]]

/-- FreeCAD `App.Rotation(a, b, c)` on three floats: yaw-pitch-roll Euler
angles in degrees, i.e. `Rz(a) * Ry(b) * Rx(c)`. -/
noncomputable def appRotation (a b c : ℝ) : Rot := rotZ a * rotY b * rotX c

/-- `create_rotation` (src/useful_functions.py lines 22-23): splices the
degree triple into the three-float `App.Rotation` constructor. -/
noncomputable def create_rotation (t : ℝ × ℝ × ℝ) : Rot :=
  appRotation t.1 t.2.1 t.2.2

/-- `compound_rotation` (src/useful_functions.py lines 14-19): starts from
`App.Rotation(App.Vector(0,0,1), 0)` (the Z axis-angle rotation by 0
degrees) and folds `create_rotation(rotation).multiply(accumulated)`
over the list. -/
noncomputable def compound_rotation (l : List (ℝ × ℝ × ℝ)) : Rot :=
  l.foldl (fun acc r => create_rotation r * acc) (rotZ 0)

lemma radians_zero : radians 0 = 0 := by
  simp [radians]

lemma rotX_zero : rotX 0 = 1 := by
  ext i j
  fin_cases i <;> fin_cases j <;>
    simp [rotX, radians_zero, Matrix.one_apply, Matrix.vecHead, Matrix.vecTail]

lemma rotY_zero : rotY 0 = 1 := by
  ext i j
  fin_cases i <;> fin_cases j <;>
    simp [rotY, radians_zero, Matrix.one_apply, Matrix.vecHead, Matrix.vecTail]

lemma rotZ_zero : rotZ 0 = 1 := by
  ext i j
  fin_cases i <;> fin_cases j <;>
    simp [rotZ, radians_zero, Matrix.one_apply, Matrix.vecHead, Matrix.vecTail]

lemma create_rotation_def (a b c : ℝ) :
    create_rotation (a, b, c) = rotZ a * rotY b * rotX c := rfl

lemma create_rotation_fst (a : ℝ) : create_rotation (a, 0, 0) = rotZ a := by
  rw [create_rotation_def, rotY_zero, rotX_zero, mul_one, mul_one]

lemma create_rotation_snd (b : ℝ) : create_rotation (0, b, 0) = rotY b := by
  rw [create_rotation_def, rotZ_zero, rotX_zero, one_mul, mul_one]

lemma rotX_mulVec (d : ℝ) (v : Vec3) :
    (rotX d).mulVec v =
      ![v 0,
        Real.cos (radians d) * v 1 - Real.sin (radians d) * v 2,
        Real.sin (radians d) * v 1 + Real.cos (radians d) * v 2] := by
  funext i
  fin_cases i <;>
    simp [rotX, Matrix.mulVec, Matrix.dotProduct, Fin.sum_univ_three,
      Matrix.vecHead, Matrix.vecTail] <;> ring

lemma rotY_mulVec (d : ℝ) (v : Vec3) :
    (rotY d).mulVec v =
      ![Real.cos (radians d) * v 0 + Real.sin (radians d) * v 2,
        v 1,
        -Real.sin (radians d) * v 0 + Real.cos (radians d) * v 2] := by
  funext i
  fin_cases i <;>
    simp [rotY, Matrix.mulVec, Matrix.dotProduct, Fin.sum_univ_three,
      Matrix.vecHead, Matrix.vecTail] <;> ring

lemma rotZ_mulVec (d : ℝ) (v : Vec3) :
    (rotZ d).mulVec v =
      ![Real.cos (radians d) * v 0 - Real.sin (radians d) * v 1,
        Real.sin (radians d) * v 0 + Real.cos (radians d) * v 1,
        v 2] := by
  funext i
  fin_cases i <;>
    simp [rotZ, Matrix.mulVec, Matrix.dotProduct, Fin.sum_univ_three,
      Matrix.vecHead, Matrix.vecTail] <;> ring

lemma foldl_create_rotation (l : List (ℝ × ℝ × ℝ)) (acc : Rot) :
    l.foldl (fun a r => create_rotation r * a) acc
      = ((l.map create_rotation).reverse).prod * acc := by
  induction l generalizing acc with
  | nil => simp
  | cons r l ih =>
      simp only [List.foldl_cons, List.map_cons, List.reverse_cons, List.prod_append,
        List.prod_cons, List.prod_nil, mul_one, ih, mul_assoc]

lemma compound_rotation_eq_prod (l : List (ℝ × ℝ × ℝ)) :
    compound_rotation l = ((l.map create_rotation).reverse).prod := by
  rw [compound_rotation, rotZ_zero, foldl_create_rotation, mul_one]

lemma reverse_prod_mulVec (l : List Rot) (v : Vec3) :
    (l.reverse.prod).mulVec v = l.foldl (fun w M => M.mulVec w) v := by
  induction l generalizing v with
  | nil => simp [Matrix.one_mulVec]
  | cons M l ih =>
      simp only [List.reverse_cons, List.prod_append, List.prod_cons, List.prod_nil,
        mul_one, List.foldl_cons]
      rw [← Matrix.mulVec_mulVec, ih]

lemma compound_rotation_mulVec (l : List (ℝ × ℝ × ℝ)) (v : Vec3) :
    (compound_rotation l).mulVec v
      = l.foldl (fun w r => (create_rotation r).mulVec w) v := by
  rw [compound_rotation_eq_prod, reverse_prod_mulVec, List.foldl_map]

lemma compound_rotation_pair (a b : ℝ × ℝ × ℝ) :
    compound_rotation [a, b] = create_rotation b * create_rotation a := by
  rw [compound_rotation_eq_prod]; simp

/-- C1: `compound_rotation` returns the rotation obtained by folding
`next_rotation.multiply(accumulated)` over the list starting from the
identity, i.e. the product `R(rn) * ... * R(r1)`; consequently, applying
the result to a vector applies r1's rotation first, then r2's, and so on
in listed order. -/
theorem compound_rotation_fold_product_order (l : List (ℝ × ℝ × ℝ)) :
    compound_rotation l = l.foldl (fun acc r => create_rotation r * acc) 1
    ∧ compound_rotation l = ((l.map create_rotation).reverse).prod
    ∧ ∀ v : Vec3, (compound_rotation l).mulVec v
        = l.foldl (fun w r => (create_rotation r).mulVec w) v := by
  refine ⟨?_, compound_rotation_eq_prod l, compound_rotation_mulVec l⟩
  rw [compound_rotation, rotZ_zero]

lemma radians_neg (d : ℝ) : radians (-d) = -radians d := by
  unfold radians; ring

lemma radians_90 : radians 90 = Real.pi / 2 := by
  unfold radians; ring

lemma radians_45 : radians 45 = Real.pi / 4 := by
  unfold radians; ring

/-- C2 counterexample: for the list [(0,90,0),(45,0,0)] (the rotations the
recipe scripts pass as `hole_rotation=[(0,90,0),(angle_deg,0,0)]`), the
rotation returned by `compound_rotation`, applied to the test vector
(0,1,0), does NOT equal applying the X-axis rotation by 45 degrees first
and then the Y-axis 90-degree rotation: the three-float rotation
constructor reads (45,0,0) as a yaw about Z, not a roll about X. -/
theorem composition_vs_x_then_y_counterexample :
    (compound_rotation [(0, 90, 0), (45, 0, 0)]).mulVec ![0, 1, 0]
      ≠ (rotY 90).mulVec ((rotX 45).mulVec ![0, 1, 0]) := by
  have hL : (compound_rotation [(0, 90, 0), (45, 0, 0)]).mulVec ![0, 1, 0]
      = ![-Real.sin (radians 45), Real.cos (radians 45), 0] := by
    rw [compound_rotation_pair, create_rotation_fst, create_rotation_snd,
      ← Matrix.mulVec_mulVec, rotY_mulVec, rotZ_mulVec]
    funext i
    fin_cases i <;> simp
  have hR : (rotY 90).mulVec ((rotX 45).mulVec ![0, 1, 0])
      = ![Real.sin (radians 45), Real.cos (radians 45), 0] := by
    rw [rotX_mulVec, rotY_mulVec, radians_90]
    funext i
    fin_cases i <;> simp [Real.cos_pi_div_two, Real.sin_pi_div_two]
  rw [hL, hR]
  intro h
  have h0 := congrFun h 0
  simp only [Matrix.cons_val_zero] at h0
  have hs : Real.sin (radians 45) = Real.sqrt 2 / 2 := by
    rw [radians_45, Real.sin_pi_div_four]
  have h2 : 0 < Real.sqrt 2 := Real.sqrt_pos.mpr (by norm_num)
  rw [hs] at h0
  linarith

/-- C2 amended: for the input list [(0,90,0),(angle,0,0)], the rotation
returned by `compound_rotation`, applied to any vector, equals applying
the X-axis rotation of MINUS angle degrees first and then the Y-axis
90-degree rotation; equivalently it equals the Y-axis 90-degree rotation
applied first followed by the Z-axis rotation of angle degrees, because
the three-float rotation constructor reads (angle,0,0) as a yaw about
the Z axis (in particular this holds for angle = 45). -/
theorem composition_order_amended (angle : ℝ) (v : Vec3) :
    (compound_rotation [(0, 90, 0), (angle, 0, 0)]).mulVec v
      = (rotY 90).mulVec ((rotX (-angle)).mulVec v)
    ∧ (compound_rotation [(0, 90, 0), (angle, 0, 0)]).mulVec v
      = (rotZ angle).mulVec ((rotY 90).mulVec v) := by
  have hc : (compound_rotation [(0, 90, 0), (angle, 0, 0)]).mulVec v
      = (rotZ angle).mulVec ((rotY 90).mulVec v) := by
    rw [compound_rotation_pair, create_rotation_fst, create_rotation_snd,
      ← Matrix.mulVec_mulVec]
  refine ⟨?_, hc⟩
  rw [hc]
  simp only [rotY_mulVec, rotZ_mulVec, rotX_mulVec, radians_90, radians_neg]
  funext i
  fin_cases i <;>
    simp [Real.cos_pi_div_two, Real.sin_pi_div_two, Real.cos_neg, Real.sin_neg] <;> ring

/-- A FreeCAD `App.Placement`: a translation plus a rotation. -/
structure Placement where
  base : Vec3
  rotation : Rot

/-- The `hole_rotation` argument of `make_hole`: either a bare degree
triple or a list of triples; `make_hole` dispatches on the runtime type
(src/useful_functions.py line 53). -/
inductive RotationArg where
  | tuple (t : ℝ × ℝ × ℝ)
  | composed (l : List (ℝ × ℝ × ℝ))

/-- The rotation `make_hole` assigns to the tool (line 53):
`create_rotation(hole_rotation) if type(hole_rotation) is tuple else
compound_rotation(hole_rotation)`. -/
noncomputable def holeRotation : RotationArg → Rot
  | RotationArg.tuple t => create_rotation t
  | RotationArg.composed l => compound_rotation l

/-- A placed cylinder (the `Part::Cylinder` cutting tool of `make_hole`). -/
structure Cylinder where
  radius : ℝ
  height : ℝ
  placement : Placement

/-- The cutting tool constructed by `make_hole` (src/useful_functions.py
lines 49-58): radius = hole_diameter/2, height = hole_height, placed at
`hole_position` with the dispatched rotation; when `through_hole` is set,
line 58 shifts the base by `- rotation.multVec(App.Vector(0,0,hole_height/2))`. -/
noncomputable def make_hole_tool (hole_diameter hole_height : ℝ) (hole_position : Vec3)
    (hole_rotation : RotationArg) (through_hole : Bool) : Cylinder :=
  let rot := holeRotation hole_rotation
  let base := hole_position
  let base := if through_hole then base - rot.mulVec ![0, 0, hole_height / 2] else base
  { radius := hole_diameter / 2, height := hole_height,
    placement := { base := base, rotation := rot } }

lemma make_hole_tool_base_true (d h : ℝ) (p : Vec3) (r : RotationArg) :
    (make_hole_tool d h p r true).placement.base
      = p - (holeRotation r).mulVec ![0, 0, h / 2] := rfl

lemma make_hole_tool_rotation (d h : ℝ) (p : Vec3) (r : RotationArg) (thr : Bool) :
    (make_hole_tool d h p r thr).placement.rotation = holeRotation r := rfl

/-- C3: for every `make_hole` call with `through_hole=True`, position p,
height h and rotation given as tuple or list, the tool's placement origin
after the back-shift equals `p - R.multVec((0,0,h/2))` where R is the
hole's rotation; in particular, for the composed rotation
[(0,90,0),(90,0,0)] (used by the recipe scripts) the shift vector is
rotated onto the Y axis, so the origin is `p - (0,h/2,0)`, not
`p - (0,0,h/2)` along world axes. -/
theorem make_hole_through_back_shift (hole_diameter hole_height : ℝ) (p : Vec3)
    (r : RotationArg) :
    (make_hole_tool hole_diameter hole_height p r true).placement.base
      = p - (holeRotation r).mulVec ![0, 0, hole_height / 2]
    ∧ (make_hole_tool hole_diameter hole_height p r true).placement.rotation
      = holeRotation r
    ∧ (make_hole_tool hole_diameter hole_height p
        (RotationArg.composed [(0, 90, 0), (90, 0, 0)]) true).placement.base
      = p - ![0, hole_height / 2, 0] := by
  refine ⟨rfl, rfl, ?_⟩
  rw [make_hole_tool_base_true]
  have hrot : (holeRotation (RotationArg.composed [(0, 90, 0), (90, 0, 0)])).mulVec
      ![0, 0, hole_height / 2] = ![0, hole_height / 2, 0] := by
    show (compound_rotation [(0, 90, 0), (90, 0, 0)]).mulVec _ = _
    rw [compound_rotation_pair, create_rotation_fst, create_rotation_snd,
      ← Matrix.mulVec_mulVec]
    simp only [rotY_mulVec, rotZ_mulVec, radians_90]
    funext i
    fin_cases i <;> simp [Real.cos_pi_div_two, Real.sin_pi_div_two]
  rw [hrot]

/-- C10: `compound_rotation` of the empty list is the identity rotation;
on a one-element list it agrees with `create_rotation` of the bare tuple;
hence `make_hole` gives the tool the same orientation whether the
rotation argument is the tuple t or the list [t], despite dispatching to
different code paths by runtime type. -/
theorem compound_rotation_empty_singleton :
    compound_rotation [] = 1
    ∧ (∀ t : ℝ × ℝ × ℝ, compound_rotation [t] = create_rotation t)
    ∧ ∀ (t : ℝ × ℝ × ℝ) (d h : ℝ) (p : Vec3) (thr : Bool),
        (make_hole_tool d h p (RotationArg.tuple t) thr).placement.rotation
          = (make_hole_tool d h p (RotationArg.composed [t]) thr).placement.rotation := by
  have h1 : ∀ t : ℝ × ℝ × ℝ, compound_rotation [t] = create_rotation t := by
    intro t; rw [compound_rotation_eq_prod]; simp
  refine ⟨by rw [compound_rotation_eq_prod]; simp, h1, ?_⟩
  intro t d h p thr
  rw [make_hole_tool_rotation, make_hole_tool_rotation]
  show create_rotation t = compound_rotation [t]
  rw [h1]

/-- The point set of a placed cylinder: the canonical cylinder of the
given radius about the local Z axis, z ranging over [0, height],
transformed by the placement (rotation, then translation). -/
def cylinderPoints (c : Cylinder) : Set Vec3 :=
  { q | ∃ u : Vec3, u 0 ^ 2 + u 1 ^ 2 ≤ c.radius ^ 2 ∧ 0 ≤ u 2 ∧ u 2 ≤ c.height ∧
        q = c.placement.base + c.placement.rotation.mulVec u }

/-- `Part::Cut` at shape level: boolean subtraction of point sets. -/
def cutShape (base tool : Set Vec3) : Set Vec3 := base \ tool

/-- The solid returned by `make_hole` at shape level (src/useful_functions.py
lines 60-66): the target minus the placed cutting tool.  `make_hole`
performs no overlap validation or rejection: it is a total function that
always returns the boolean difference. -/
noncomputable def make_hole_shape (S : Set Vec3) (d h : ℝ) (p : Vec3)
    (r : RotationArg) (thr : Bool) : Set Vec3 :=
  cutShape S (cylinderPoints (make_hole_tool d h p r thr))

/-- C7: whenever the placed cutting tool of a `make_hole` call is
entirely disjoint from the target solid S, the returned solid equals S:
a hole specified entirely outside the target leaves it unchanged, and
`make_hole` performs no overlap validation or rejection. -/
theorem make_hole_disjoint_leaves_target (S : Set Vec3) (d h : ℝ) (p : Vec3)
    (r : RotationArg) (thr : Bool)
    (hdisj : Disjoint S (cylinderPoints (make_hole_tool d h p r thr))) :
    make_hole_shape S d h p r thr = S := by
  unfold make_hole_shape cutShape
  exact hdisj.sdiff_eq_left

/-- Witness for C7: the half-space below z=0 is disjoint from an
unrotated tool cylinder sitting on z=0, and `make_hole` leaves it
unchanged. -/
theorem make_hole_disjoint_leaves_target_witness :
    make_hole_shape { q : Vec3 | q 2 < 0 } 2 10 ![0, 0, 0]
        (RotationArg.tuple (0, 0, 0)) false
      = { q : Vec3 | q 2 < 0 } := by
  apply make_hole_disjoint_leaves_target
  have hrotp : (make_hole_tool 2 10 ![0, 0, 0]
      (RotationArg.tuple (0, 0, 0)) false).placement.rotation = 1 := by
    rw [make_hole_tool_rotation]
    show create_rotation (0, 0, 0) = 1
    rw [create_rotation_def, rotZ_zero, rotY_zero, rotX_zero, mul_one, mul_one]
  have hbase : (make_hole_tool 2 10 ![0, 0, 0]
      (RotationArg.tuple (0, 0, 0)) false).placement.base = ![0, 0, 0] := rfl
  rw [Set.disjoint_left]
  intro q hq hmem
  simp only [Set.mem_setOf_eq] at hq
  simp only [cylinderPoints, Set.mem_setOf_eq, hrotp, hbase, Matrix.one_mulVec] at hmem
  obtain ⟨u, -, hu0, -, hqe⟩ := hmem
  have hq2 : q 2 = u 2 := by
    rw [hqe]; simp
  rw [hq2] at hq
  linarith

/-- The kinds of objects the scripts add to the document (referring to
other objects by their index in the document's object list). -/
inductive ObjData where
  | cylinderObj (radius height : ℝ) (placement : Placement)
  | boxObj (length width height : ℝ) (placement : Placement)
  | cutData (base tool : ℕ)
  | fuseData (base tool : ℕ)
  | compoundData (links : List ℕ)

/-- The active FreeCAD document: the list of objects added so far. -/
structure Doc where
  objects : List ObjData

/-- `doc.addObject(...)`: appends the object and returns the new document
together with a reference (index) to the added object. -/
def Doc.addObject (d : Doc) (o : ObjData) : Doc × ℕ :=
  (⟨d.objects ++ [o]⟩, d.objects.length)

/-- `cut` (src/useful_functions.py lines 26-32): adds a `Part::Cut`
object referring to the base and the tool, recomputes, and returns it. -/
def cut (d : Doc) (base tool : ℕ) : Doc × ℕ :=
  d.addObject (ObjData.cutData base tool)

/-- `join_parts` (src/useful_functions.py lines 68-84): adds a
`Part::Fuse` object referring to the two parts, recomputes, returns it. -/
def join_parts (d : Doc) (part1 part2 : ℕ) : Doc × ℕ :=
  d.addObject (ObjData.fuseData part1 part2)

/-- `make_hole` at document level (src/useful_functions.py lines 46-66):
adds the cylindrical cutting tool placed as `make_hole_tool` describes,
then adds a `Part::Cut` of the part by the tool, recomputes, and returns
the cut object. -/
noncomputable def make_hole (d : Doc) (part : ℕ) (hole_diameter hole_height : ℝ)
    (hole_position : Vec3) (hole_rotation : RotationArg) (through_hole : Bool) :
    Doc × ℕ :=
  let tool := make_hole_tool hole_diameter hole_height hole_position hole_rotation
    through_hole
  let r1 := d.addObject (ObjData.cylinderObj tool.radius tool.height tool.placement)
  r1.1.addObject (ObjData.cutData part r1.2)

lemma cut_objects_mono (d : Doc) (b t : ℕ) :
    ∀ o ∈ d.objects, o ∈ (cut d b t).1.objects := by
  intro o ho
  exact List.mem_append_left _ ho

lemma join_parts_objects_mono (d : Doc) (p1 p2 : ℕ) :
    ∀ o ∈ d.objects, o ∈ (join_parts d p1 p2).1.objects := by
  intro o ho
  exact List.mem_append_left _ ho

lemma make_hole_objects_mono (d : Doc) (part : ℕ) (dia hh : ℝ) (pos : Vec3)
    (r : RotationArg) (thr : Bool) :
    ∀ o ∈ d.objects, o ∈ (make_hole d part dia hh pos r thr).1.objects := by
  intro o ho
  exact List.mem_append_left _ (List.mem_append_left _ ho)

/-- C8: each helper operation (`cut`, `make_hole`, `join_parts`) only
adds new objects to the document and returns a reference to the new
result; every object present before the call is still present after it. -/
theorem helpers_only_add_objects :
    (∀ (d : Doc) (b t : ℕ), ∀ o ∈ d.objects, o ∈ (cut d b t).1.objects)
    ∧ (∀ (d : Doc) (part : ℕ) (dia hh : ℝ) (pos : Vec3) (r : RotationArg) (thr : Bool),
        ∀ o ∈ d.objects, o ∈ (make_hole d part dia hh pos r thr).1.objects)
    ∧ (∀ (d : Doc) (p1 p2 : ℕ), ∀ o ∈ d.objects, o ∈ (join_parts d p1 p2).1.objects) :=
  ⟨cut_objects_mono, make_hole_objects_mono, join_parts_objects_mono⟩

/-- Witness for C8: a concrete one-object document keeps its object
through each of the three helpers. -/
theorem helpers_only_add_objects_witness :
    ObjData.cutData 0 0 ∈ (cut ⟨[ObjData.cutData 0 0]⟩ 0 0).1.objects
    ∧ ObjData.cutData 0 0 ∈ (make_hole ⟨[ObjData.cutData 0 0]⟩ 0 1 1 ![0, 0, 0]
        (RotationArg.tuple (0, 0, 0)) false).1.objects
    ∧ ObjData.cutData 0 0 ∈ (join_parts ⟨[ObjData.cutData 0 0]⟩ 0 0).1.objects := by
  have hmem : ObjData.cutData 0 0 ∈ (⟨[ObjData.cutData 0 0]⟩ : Doc).objects :=
    List.mem_cons_self _ _
  exact ⟨helpers_only_add_objects.1 _ 0 0 _ hmem,
    helpers_only_add_objects.2.1 _ 0 1 1 ![0, 0, 0] (RotationArg.tuple (0, 0, 0)) false
      _ hmem,
    helpers_only_add_objects.2.2 _ 0 0 _ hmem⟩

/-- One script statement acting on the document: it returns the document
as the statement left it (including any objects added before a failure)
and `some e` when the statement raised. -/
abbrev Step (E : Type) := Doc → Doc × Option E

/-- Sequential script execution with exception propagation: statements
run in order and the first raising statement aborts the remainder,
leaving the document exactly as that statement left it.  The helpers
contain no try/except, so there is no retry, rollback, or recovery. -/
def runScript {E : Type} : List (Step E) → Doc → Doc × Option E
  | [], d => (d, none)
  | s :: rest, d =>
    match s d with
    | (d1, none) => runScript rest d1
    | (d1, some e) => (d1, some e)

/-- A script statement calling `make_hole` whose final `doc.recompute()`
(src/useful_functions.py line 64) may raise: the tool and cut objects are
already in the document when the recompute runs, and the helper does not
catch the error. -/
noncomputable def make_hole_step {E : Type} (recomputeError : Doc → Option E)
    (part : ℕ) (dia hh : ℝ) (pos : Vec3) (r : RotationArg) (thr : Bool) : Step E :=
  fun d =>
    let res := make_hole d part dia hh pos r thr
    (res.1, recomputeError res.1)

lemma runScript_append {E : Type} (pre rest : List (Step E)) (d0 d1 : Doc)
    (h : runScript pre d0 = (d1, none)) :
    runScript (pre ++ rest) d0 = runScript rest d1 := by
  induction pre generalizing d0 with
  | nil =>
      simp only [runScript] at h
      injection h with h1 h2
      subst h1
      simp
  | cons s pre ih =>
      rcases hsd : s d0 with ⟨d2, oe⟩
      cases oe with
      | none =>
          rw [List.cons_append]
          simp only [runScript, hsd] at h ⊢
          exact ih d2 h
      | some e =>
          simp only [runScript, hsd] at h
          exact absurd (congrArg Prod.snd h) (by simp)

/-- C9 counterexample: a script whose single statement is a `make_hole`
call with a failing `doc.recompute()` stops with the error, but the
document is NOT left exactly in its last-successful intermediate state
(the initial one-object document): the failing call's cylinder and cut
objects, added before the recompute raised, remain in the document. -/
theorem script_failure_state_counterexample :
    (runScript [make_hole_step (fun _ => some ()) 0 1 1 ![0, 0, 0]
        (RotationArg.tuple (0, 0, 0)) false] (⟨[ObjData.cutData 0 0]⟩ : Doc)).2
      = some ()
    ∧ (runScript [make_hole_step (fun _ => some ()) 0 1 1 ![0, 0, 0]
        (RotationArg.tuple (0, 0, 0)) false] (⟨[ObjData.cutData 0 0]⟩ : Doc)).1
      ≠ (⟨[ObjData.cutData 0 0]⟩ : Doc) := by
  constructor
  · rfl
  · intro h
    have hl := congrArg (fun d => d.objects.length) h
    simp [runScript, make_hole_step, make_hole, Doc.addObject] at hl

/-- C9 amended: if a script statement raises (here: a `make_hole` whose
recompute fails), no subsequent statement of the script executes and the
script result is exactly the document the failing call left behind; that
document retains every solid committed before the failing call (and, in
addition, the tool and cut objects the failing call itself added before
its recompute raised).  The helpers perform no retry, rollback, or
recovery. -/
theorem script_stops_at_failure_amended {E : Type} (pre post : List (Step E))
    (recomputeError : Doc → Option E) (part : ℕ) (dia hh : ℝ) (pos : Vec3)
    (r : RotationArg) (thr : Bool) (d0 d1 d2 : Doc) (e : E)
    (hpre : runScript pre d0 = (d1, none))
    (hfail : make_hole_step recomputeError part dia hh pos r thr d1 = (d2, some e)) :
    runScript
        (pre ++ make_hole_step recomputeError part dia hh pos r thr :: post) d0
      = (d2, some e)
    ∧ ∀ o ∈ d1.objects, o ∈ d2.objects := by
  have hd2 : d2 = (make_hole d1 part dia hh pos r thr).1 := by
    have := congrArg Prod.fst hfail
    simpa [make_hole_step] using this.symm
  constructor
  · rw [runScript_append pre _ d0 d1 hpre]
    simp only [runScript, hfail]
  · intro o ho
    rw [hd2]
    exact make_hole_objects_mono d1 part dia hh pos r thr o ho

/-- Witness for C9 amended: the empty prefix succeeds trivially and a
concrete always-failing `make_hole` statement yields exactly the
document it built, retaining the initial object. -/
theorem script_stops_at_failure_amended_witness :
    runScript [make_hole_step (fun _ => some ()) 0 1 1 ![0, 0, 0]
        (RotationArg.tuple (0, 0, 0)) false] (⟨[ObjData.cutData 0 0]⟩ : Doc)
      = ((make_hole (⟨[ObjData.cutData 0 0]⟩ : Doc) 0 1 1 ![0, 0, 0]
          (RotationArg.tuple (0, 0, 0)) false).1, some ())
    ∧ ∀ o ∈ (⟨[ObjData.cutData 0 0]⟩ : Doc).objects,
        o ∈ (make_hole (⟨[ObjData.cutData 0 0]⟩ : Doc) 0 1 1 ![0, 0, 0]
          (RotationArg.tuple (0, 0, 0)) false).1.objects := by
  have h := script_stops_at_failure_amended ([] : List (Step Unit)) []
    (fun _ => some ()) 0 1 1 ![0, 0, 0] (RotationArg.tuple (0, 0, 0)) false
    (⟨[ObjData.cutData 0 0]⟩ : Doc) (⟨[ObjData.cutData 0 0]⟩ : Doc)
    (make_hole (⟨[ObjData.cutData 0 0]⟩ : Doc) 0 1 1 ![0, 0, 0]
      (RotationArg.tuple (0, 0, 0)) false).1 () rfl rfl
  simpa using h

/-- The placement offset `create_centered_rectangle` gives the
`Part::Box` in src/useful_functions.py line 103 — the same formula
appears in the copies in create_base_v2.py, create_base_v3.py, both
first-joint scripts, both second-motor scripts, motor_hole_test.py and
motor_to_arm_16mm.py: `App.Vector(-length/2, -width/2, 0)`. -/
noncomputable def create_centered_rectangle_offset (length width : ℝ) : Vec3 :=
  ![-(length / 2), -(width / 2), 0]

/-- The placement offset used by the copies of
`create_centered_rectangle` in src/create_base_v1.py line 101 and
src/unnamed/part_000 line 102: `App.Vector(-width/2, -length/2, 0)`,
with length and width swapped relative to the other copies. -/
noncomputable def create_centered_rectangle_offset_v1 (length width : ℝ) : Vec3 :=
  ![-(width / 2), -(length / 2), 0]

/-- C4 counterexample: the copy of the centered-rectangle helper in
create_base_v1.py / unnamed/part_000 does not place the box at
(-length/2, -width/2, 0): at length 10, width 20 its offset is
(-10, -5, 0), not (-5, -10, 0), so the centering convention does not
hold across all definitions of the helper. -/
theorem centered_rectangle_offset_counterexample :
    create_centered_rectangle_offset_v1 10 20 ≠ ![-(10 / 2 : ℝ), -(20 / 2), 0] := by
  intro h
  have h0 := congrFun h 0
  norm_num [create_centered_rectangle_offset_v1] at h0

/-- C4 amended: the main definition of `create_centered_rectangle`
(src/useful_functions.py and nine of the eleven copies) places the box
with offset (-length/2, -width/2, 0); the two remaining copies
(create_base_v1.py, unnamed/part_000) swap the components but agree with
the convention whenever length = width, which holds at their only
executed call site (length = width = 10 in part_000; create_base_v1's
copy is never called), so every executed call still yields a box
centered in X and Y resting on Z = 0. -/
theorem centered_rectangle_offset_amended :
    (∀ length width : ℝ, create_centered_rectangle_offset length width
        = ![-(length / 2), -(width / 2), 0])
    ∧ (∀ length width : ℝ, length = width →
        create_centered_rectangle_offset_v1 length width
          = ![-(length / 2), -(width / 2), 0])
    ∧ create_centered_rectangle_offset_v1 10 10 = ![-(10 / 2 : ℝ), -(10 / 2), 0] := by
  refine ⟨fun l w => rfl, ?_, rfl⟩
  intro l w h
  subst h
  rfl

/-- Witness for C4 amended: concrete offsets for the main copy and for
the swapped copy at its executed (square) call site. -/
theorem centered_rectangle_offset_amended_witness :
    create_centered_rectangle_offset 3 4 = ![-(3 / 2 : ℝ), -(4 / 2), 0]
    ∧ create_centered_rectangle_offset_v1 10 10 = ![-(10 / 2 : ℝ), -(10 / 2), 0] :=
  ⟨centered_rectangle_offset_amended.1 3 4,
    centered_rectangle_offset_amended.2.1 10 10 rfl⟩

/-- `number_of_holes = 8` (src/create_base_v2.py line 135). -/
def number_of_holes : ℕ := 8

/-- The placement angle in degrees of radial feature i
(src/create_base_v2.py line 137:
`angle = (360/number_of_holes * i) + 360/number_of_holes/2`). -/
noncomputable def base_v2_hole_angle (i : ℕ) : ℝ :=
  360 / (number_of_holes : ℝ) * i + 360 / (number_of_holes : ℝ) / 2

/-- The Cartesian position of radial feature i at distance `dist` from
the center (src/create_base_v2.py lines 140-143:
`x = math.cos(math.radians(angle)) * dist`,
`y = math.sin(math.radians(angle)) * dist`). -/
noncomputable def base_v2_hole_position (dist : ℝ) (i : ℕ) : ℝ × ℝ :=
  (Real.cos (radians (base_v2_hole_angle i)) * dist,
    Real.sin (radians (base_v2_hole_angle i)) * dist)

/-- C5: in the radial loop with N = 8 and phase offset 360/N/2, the
angle of feature i equals 22.5 + 45·i degrees (a value already below 360
for i < 8, hence equal to itself mod 360), and the Cartesian position at
radius R equals (R·cos, R·sin) of that angle. -/
theorem radial_placement_angles (dist : ℝ) (i : ℕ) (hi : i < 8) :
    base_v2_hole_angle i = 22.5 + 45 * i
    ∧ base_v2_hole_angle i < 360
    ∧ base_v2_hole_position dist i
      = (dist * Real.cos (radians (22.5 + 45 * i)),
          dist * Real.sin (radians (22.5 + 45 * i))) := by
  have ha : base_v2_hole_angle i = 22.5 + 45 * i := by
    unfold base_v2_hole_angle number_of_holes
    push_cast
    ring
  refine ⟨ha, ?_, ?_⟩
  · rw [ha]
    have hc : (i : ℝ) ≤ 7 := by exact_mod_cast Nat.lt_succ_iff.mp hi
    linarith
  · unfold base_v2_hole_position
    rw [ha, Prod.mk.injEq]
    exact ⟨mul_comm _ _, mul_comm _ _⟩

/-- Witness for C5: feature 3 sits at 157.5 degrees, and its position at
radius 2 matches (2·cos, 2·sin) of that angle. -/
theorem radial_placement_angles_witness :
    base_v2_hole_angle 3 = 22.5 + 45 * (3 : ℕ)
    ∧ base_v2_hole_angle 3 < 360
    ∧ base_v2_hole_position 2 3
      = (2 * Real.cos (radians (22.5 + 45 * (3 : ℕ))),
          2 * Real.sin (radians (22.5 + 45 * (3 : ℕ)))) :=
  radial_placement_angles 2 3 (by norm_num)

/-- The point set of `Part.makeCylinder(radius, height)` translated by
`position` (src/useful_functions.py lines 291-296): an axis-aligned
cylinder about the local Z axis. -/
def simpleCylinderPoints (radius height : ℝ) (position : Vec3) : Set Vec3 :=
  { q | (q 0 - position 0) ^ 2 + (q 1 - position 1) ^ 2 ≤ radius ^ 2
        ∧ 0 ≤ q 2 - position 2 ∧ q 2 - position 2 ≤ height }

/-- `create_hollow_cylinder` (src/useful_functions.py lines 279-305):
raises `ValueError("Inner radius must be smaller than outer radius")`
when `inner_radius >= outer_radius` (line 287), otherwise cuts the inner
cylinder from the outer cylinder and returns the resulting solid. -/
noncomputable def create_hollow_cylinder (outer_radius inner_radius height : ℝ)
    (position : Vec3) : Except String (Set Vec3) :=
  if inner_radius ≥ outer_radius then
    Except.error "Inner radius must be smaller than outer radius"
  else
    Except.ok (simpleCylinderPoints outer_radius height position \
      simpleCylinderPoints inner_radius height position)

/-- C6: `create_hollow_cylinder` raises the invalid-parameter error if
and only if inner_radius ≥ outer_radius; for every input with
inner_radius < outer_radius no error is raised and the hollow-cylinder
solid (outer minus inner) is produced. -/
theorem hollow_cylinder_error_iff (outer inner height : ℝ) (pos : Vec3) :
    ((∃ msg, create_hollow_cylinder outer inner height pos = Except.error msg)
      ↔ inner ≥ outer)
    ∧ ((∃ s, create_hollow_cylinder outer inner height pos = Except.ok s)
      ↔ inner < outer)
    ∧ (inner < outer →
        create_hollow_cylinder outer inner height pos
          = Except.ok (simpleCylinderPoints outer height pos \
              simpleCylinderPoints inner height pos)) := by
  by_cases hio : inner ≥ outer
  · have he : create_hollow_cylinder outer inner height pos
        = Except.error "Inner radius must be smaller than outer radius" := by
      unfold create_hollow_cylinder
      rw [if_pos hio]
    refine ⟨⟨fun _ => hio, fun _ => ⟨_, he⟩⟩, ⟨?_, ?_⟩, ?_⟩
    · rintro ⟨s, hs⟩
      rw [he] at hs
      exact absurd hs (by simp)
    · intro hlt
      exact absurd hlt (not_lt.mpr hio)
    · intro hlt
      exact absurd hlt (not_lt.mpr hio)
  · have hlt : inner < outer := lt_of_not_ge hio
    have hok : create_hollow_cylinder outer inner height pos
        = Except.ok (simpleCylinderPoints outer height pos \
            simpleCylinderPoints inner height pos) := by
      unfold create_hollow_cylinder
      rw [if_neg hio]
    refine ⟨⟨?_, fun hge => absurd hge hio⟩,
      ⟨fun _ => hlt, fun _ => ⟨_, hok⟩⟩, fun _ => hok⟩
    rintro ⟨msg, hmsg⟩
    rw [hok] at hmsg
    exact absurd hmsg (by simp)

/-- Witness for C6: radii (outer 2, inner 1) produce a solid; radii
(outer 1, inner 2) produce the invalid-parameter error. -/
theorem hollow_cylinder_error_iff_witness :
    (∃ s, create_hollow_cylinder 2 1 5 ![0, 0, 0] = Except.ok s)
    ∧ ∃ msg, create_hollow_cylinder 1 2 5 ![0, 0, 0] = Except.error msg :=
  ⟨(hollow_cylinder_error_iff 2 1 5 ![0, 0, 0]).2.1.mpr (by norm_num),
    (hollow_cylinder_error_iff 1 2 5 ![0, 0, 0]).1.mpr (by norm_num)⟩

end RobotCAD
